import Mathlib

/-!
# Verification of the request-interception and dispatch engine of serverless-mocker

This file gives a shallow embedding, in Lean 4, of the core of the
`serverless-mocker` library: the response builder (`src/lib/server/response.ts`,
class `MockerResponse`), the service-worker dispatcher (the `fetch` event
listener of the server entry file), and the small pieces of the platform they
interact with.  Stateful TypeScript methods become pure state transformers on a
`MockerResponse` record; the single-resolution deferred promise becomes an
`Option Resolution` field with an idempotent `resolveDefer`; timers become
explicitly-invoked callback functions paired with their delay in milliseconds.

External collaborators (the `JSON` global, the `mime-component` lookup, the
`http-status-codes` table, the `Headers` class) are modelled as executable Lean
functions that follow their documented behaviour on the inputs the core feeds
them.
-/

/-! ## A model of the platform JSON collaborator

`MockerResponse.json` calls the platform's `JSON.stringify`, and the spec's
round-trip property talks about parsing the finalized body back.  We model the
JSON value universe with integer numbers (the values the library's own examples
and tests serialize), a serializer that mirrors `JSON.stringify`'s grammar
(no whitespace, escaped string literals), and a parser for that grammar.
-/

/-- A JSON-serializable value: the argument universe of `JSON.stringify`.
Numbers are integers; strings are kept as character lists so the
serializer/parser pair stays list-structural. -/
inductive JVal where
  | jnull
  | jbool (b : Bool)
  | jnum (n : Int)
  | jstr (s : List Char)
  | jarr (elems : List JVal)
  | jobj (fields : List (List Char × JVal))

/-- The opening-brace character of a JSON object literal. -/
def obrace : Char := Char.ofNat 123

/-- The closing-brace character of a JSON object literal. -/
def cbrace : Char := Char.ofNat 125

/-- The decimal digit character for `d` (meaningful for `d < 10`). -/
def digitChar (d : Nat) : Char := Char.ofNat (48 + d)

/-- Worker for `natChars`: peel decimal digits of `n` onto `acc`, most
significant first.  Fuel-indexed so the definition is structural and the
kernel can evaluate it; `natChars` supplies ample fuel. -/
def natCharsGo : Nat → Nat → List Char → List Char
  | 0, _, acc => acc
  | fuel + 1, n, acc =>
    if n < 10 then digitChar n :: acc
    else natCharsGo fuel (n / 10) (digitChar (n % 10) :: acc)

/-- Decimal digit characters of `n`, most significant first, as
`JSON.stringify` prints a non-negative integer. -/
def natChars (n : Nat) : List Char := natCharsGo (n + 1) n []

/-- The characters `JSON.stringify` prints for an integer. -/
def intChars (n : Int) : List Char :=
  if n < 0 then '-' :: natChars n.natAbs else natChars n.natAbs

/-- How `JSON.stringify` escapes one character inside a string literal. -/
def escSeq (c : Char) : List Char :=
  if c = '"' then ['\\', '"']
  else if c = '\\' then ['\\', '\\']
  else if c = '\n' then ['\\', 'n']
  else if c = '\t' then ['\\', 't']
  else if c = '\r' then ['\\', 'r']
  else [c]

/-- The body of a JSON string literal: every character escaped. -/
def escBody (s : List Char) : List Char :=
  s.foldr (fun c acc => escSeq c ++ acc) []

/-- A complete JSON string literal, quotes included. -/
def quoteStr (s : List Char) : List Char := '"' :: (escBody s ++ ['"'])

mutual

/-- The characters `JSON.stringify` produces for a value (it emits no
whitespace). -/
def jsonStr : JVal → List Char
  | .jnull => ['n', 'u', 'l', 'l']
  | .jbool true => ['t', 'r', 'u', 'e']
  | .jbool false => ['f', 'a', 'l', 's', 'e']
  | .jnum n => intChars n
  | .jstr s => quoteStr s
  | .jarr xs => '[' :: (jsonStrElems xs ++ [']'])
  | .jobj fs => obrace :: (jsonStrFields fs ++ [cbrace])
termination_by structural v => v

/-- Comma-separated rendering of array elements. -/
def jsonStrElems : List JVal → List Char
  | [] => []
  | [x] => jsonStr x
  | x :: y :: xs => jsonStr x ++ ',' :: jsonStrElems (y :: xs)
termination_by structural l => l

/-- Comma-separated rendering of object members. -/
def jsonStrFields : List (List Char × JVal) → List Char
  | [] => []
  | [(k, v)] => quoteStr k ++ ':' :: jsonStr v
  | (k, v) :: f :: fs => quoteStr k ++ ':' :: jsonStr v ++ ',' :: jsonStrFields (f :: fs)
termination_by structural l => l

end

mutual

/-- Fuel measure for the parser: enough fuel to parse a printed value. -/
def jweight : JVal → Nat
  | .jnull => 1
  | .jbool _ => 1
  | .jnum _ => 1
  | .jstr _ => 1
  | .jarr xs => 1 + jweightElems xs
  | .jobj fs => 1 + jweightFields fs
termination_by structural v => v

/-- Fuel measure for element lists. -/
def jweightElems : List JVal → Nat
  | [] => 0
  | x :: xs => 1 + jweight x + jweightElems xs
termination_by structural l => l

/-- Fuel measure for member lists. -/
def jweightFields : List (List Char × JVal) → Nat
  | [] => 0
  | (_, v) :: fs => 1 + jweight v + jweightFields fs
termination_by structural l => l

end

/-- Is `c` a decimal digit character? -/
def isDigitCh (c : Char) : Bool := 48 ≤ c.toNat && c.toNat ≤ 57

/-- Numeric value of a digit character. -/
def digitVal (c : Char) : Nat := c.toNat - 48

/-- Split a leading run of digit characters from the input. -/
def spanDigits : List Char → List Char × List Char
  | [] => ([], [])
  | c :: cs =>
    if isDigitCh c then
      let p := spanDigits cs
      (c :: p.1, p.2)
    else ([], c :: cs)

/-- The number denoted by a big-endian digit-character list. -/
def natOfChars (ds : List Char) : Nat :=
  ds.foldl (fun a c => 10 * a + digitVal c) 0

/-- Parse a leading unsigned decimal integer. -/
def parseNatCh (s : List Char) : Option (Nat × List Char) :=
  match spanDigits s with
  | ([], _) => none
  | (ds, r) => some (natOfChars ds, r)

/-- Consume the literal characters `lit` from the front of the input. -/
def eatChars : List Char → List Char → Option (List Char)
  | [], s => some s
  | _ :: _, [] => none
  | l :: ls, c :: cs => if c = l then eatChars ls cs else none

/-- Decode one escape character following a backslash. -/
def unescCh (e : Char) : Option Char :=
  if e = '"' then some '"'
  else if e = '\\' then some '\\'
  else if e = 'n' then some '\n'
  else if e = 't' then some '\t'
  else if e = 'r' then some '\r'
  else none

mutual

/-- Parse the body of a string literal after the opening quote, undoing
`escSeq` escapes, up to the closing quote. -/
def parseStrBody : List Char → Option (List Char × List Char)
  | [] => none
  | c :: cs =>
    if c = '"' then some ([], cs)
    else if c = '\\' then parseEscTail cs
    else
      match parseStrBody cs with
      | none => none
      | some p => some (c :: p.1, p.2)
termination_by structural l => l

/-- Parse what follows a backslash inside a string literal. -/
def parseEscTail : List Char → Option (List Char × List Char)
  | [] => none
  | e :: cs =>
    match unescCh e with
    | none => none
    | some d =>
      match parseStrBody cs with
      | none => none
      | some p => some (d :: p.1, p.2)
termination_by structural l => l

end

mutual

/-- Fuel-indexed parser for one JSON value (the grammar `jsonStr` emits). -/
def jparse : Nat → List Char → Option (JVal × List Char)
  | 0, _ => none
  | _ + 1, [] => none
  | fuel + 1, c :: cs =>
    if c = 'n' then (eatChars ['u', 'l', 'l'] cs).map (fun r => (.jnull, r))
    else if c = 't' then (eatChars ['r', 'u', 'e'] cs).map (fun r => (.jbool true, r))
    else if c = 'f' then (eatChars ['a', 'l', 's', 'e'] cs).map (fun r => (.jbool false, r))
    else if c = '"' then (parseStrBody cs).map (fun p => (.jstr p.1, p.2))
    else if c = '-' then (parseNatCh cs).map (fun p => (.jnum (-(p.1 : Int)), p.2))
    else if isDigitCh c then (parseNatCh (c :: cs)).map (fun p => (.jnum (p.1 : Int), p.2))
    else if c = '[' then
      if cs.head? = some ']' then some (.jarr [], cs.tail)
      else (jparseElems fuel cs).map (fun p => (.jarr p.1, p.2))
    else if c = obrace then
      if cs.head? = some cbrace then some (.jobj [], cs.tail)
      else (jparseFields fuel cs).map (fun p => (.jobj p.1, p.2))
    else none

/-- One-or-more comma-separated values, closed by `]`. -/
def jparseElems : Nat → List Char → Option (List JVal × List Char)
  | 0, _ => none
  | fuel + 1, s =>
    match jparse fuel s with
    | none => none
    | some (v, r) =>
      if r.head? = some ',' then (jparseElems fuel r.tail).map (fun p => (v :: p.1, p.2))
      else if r.head? = some ']' then some ([v], r.tail)
      else none

/-- One-or-more comma-separated `"key":value` members, closed by the
closing brace. -/
def jparseFields : Nat → List Char → Option (List (List Char × JVal) × List Char)
  | 0, _ => none
  | fuel + 1, s =>
    if s.head? = some '"' then
      match parseStrBody s.tail with
      | none => none
      | some (k, r) =>
        if r.head? = some ':' then
          match jparse fuel r.tail with
          | none => none
          | some (v, r'') =>
            if r''.head? = some ',' then
              (jparseFields fuel r''.tail).map (fun p => ((k, v) :: p.1, p.2))
            else if r''.head? = some cbrace then some ([(k, v)], r''.tail)
            else none
        else none
    else none

end

/-- The model of `JSON.parse`: parse with ample fuel and require the whole
input to be consumed. -/
def jsonParse (s : List Char) : Option JVal :=
  match jparse (s.length + 1) s with
  | some (v, []) => some v
  | _ => none


/-! ## Headers, MIME lookup, status-text collaborators -/

/-- The platform `Headers` class, modelled as an association list whose keys
are stored lowercased (the platform treats header names case-insensitively). -/
abbrev HeadersM := List (String × String)

/-- Normalize a header name the way `Headers` does (lowercase it). -/
def hKey (k : String) : String := String.mk (k.data.map Char.toLower)

/-- Worker for `hSet`: replace the binding for `key` or append it. -/
def hSetGo (key v : String) : HeadersM → HeadersM
  | [] => [(key, v)]
  | p :: t => if p.1 = key then (key, v) :: t else p :: hSetGo key v t

/-- `Headers#set`. -/
def hSet (h : HeadersM) (k v : String) : HeadersM := hSetGo (hKey k) v h

/-- Worker for `hGet`. -/
def hGetGo (key : String) : HeadersM → Option String
  | [] => none
  | p :: t => if p.1 = key then some p.2 else hGetGo key t

/-- `Headers#get`. -/
def hGet (h : HeadersM) (k : String) : Option String := hGetGo (hKey k) h

/-- `Headers#has`. -/
def hHas (h : HeadersM) (k : String) : Bool := (hGet h k).isSome

/-- `Headers#delete`. -/
def hDelete (h : HeadersM) (k : String) : HeadersM :=
  h.filter (fun p => p.1 != hKey k)

/-- The `mime-component` collaborator: `mime.lookup(token)` for the tokens
the core passes it; unknown tokens fall back to the generic binary type. -/
def mimeLookup : String → String
  | "text" => "text/plain"
  | "html" => "text/html"
  | "json" => "application/json"
  | "bin" => "application/octet-stream"
  | _ => "application/octet-stream"

/-- The `http-status-codes` collaborator: its table of canonical status
texts (the codes exercised here; it raises on unknown codes, modelled as
`none`). -/
def statusTextTable : Int → Option String
  | 101 => some "Switching Protocols"
  | 200 => some "OK"
  | 201 => some "Created"
  | 204 => some "No Content"
  | 205 => some "Reset Content"
  | 304 => some "Not Modified"
  | 404 => some "Not Found"
  | 500 => some "Internal Server Error"
  | _ => none

/-- `MockerResponse._getStatusText`: look the status text up, falling back to
`JSON.stringify(code)` (its decimal representation) when the lookup throws. -/
def getStatusTextM (c : Int) : String := (statusTextTable c).getD (toString c)

/-! ## JavaScript runtime values, as `send`/`json` dispatch on them -/

/-- A JavaScript runtime value, as far as the body-handling code
distinguishes them: `typeof` buckets plus the `Blob`/`ArrayBuffer`
`instanceof` tests. -/
inductive JsVal where
  | vstr (s : String)
  | vnum (n : Int)
  | vbool (b : Bool)
  | vnull
  | vblob (btype : String) (bdata : List Nat)
  | vbuf (bdata : List Nat)
  | vobj (j : JVal)
  | vundef
  | vfunc
  | vsym

/-- The JSON view `JSON.stringify` takes of a runtime value; `none` when
stringify yields `undefined` (functions, symbols, `undefined`).  A
`Blob`/`ArrayBuffer` has no enumerable properties, so it serializes as the
empty object. -/
def jsToJson : JsVal → Option JVal
  | .vstr s => some (.jstr s.data)
  | .vnum n => some (.jnum n)
  | .vbool b => some (.jbool b)
  | .vnull => some .jnull
  | .vblob _ _ => some (.jobj [])
  | .vbuf _ => some (.jobj [])
  | .vobj j => some j
  | .vundef => none
  | .vfunc => none
  | .vsym => none

/-- `JSON.stringify`, as `MockerResponse.json` calls it. -/
def jsStringify (v : JsVal) : Option String :=
  (jsToJson v).map (fun j => String.mk (jsonStr j))

/-! ## Requests, fetch primitives, the deferred signal -/

/-- A platform request: the fields the core reads. -/
structure MRequest where
  url : String
  method : String
  headers : HeadersM
  body : Option JsVal

/-- An intercepted fetch event. -/
structure FetchEvent where
  request : MRequest

/-- `RequestInfo`: a destination URL or a full `Request` object. -/
inductive RequestInfo where
  | url (u : String)
  | request (r : MRequest)

/-- The body slot of a `RequestInit`: either supplied by the caller, or read
off the original request's clone via `formData()`, `blob()` or `text()`. -/
inductive BodyInit where
  | given (v : JsVal)
  | formDataOf (v : Option JsVal)
  | blobOf (v : Option JsVal)
  | textOf (v : Option JsVal)

/-- A `RequestInit` dictionary (the fields the core sets or forwards). -/
structure MRequestInit where
  body : Option BodyInit := none
  method : Option String := none
  headers : Option HeadersM := none
  mode : Option String := none
  credentials : Option String := none

/-- The global context `nativeFetch` inspects: whether the global `fetch` is
the mocker-patched one, and whether an `XMLHttpRequest` (possibly patched)
exists. -/
structure GlobalCtx where
  fetchPatched : Bool
  hasXHR : Bool
  xhrPatched : Bool

/-- Which primitive a network call is issued through. -/
inductive FetchPrim where
  | fetchNative
  | polyfillWithNativeXHR
  | globalFetch

/-- A performed (or scheduled) network call: the primitive used, the input
and the init options. -/
structure FetchCall where
  prim : FetchPrim
  input : RequestInfo
  init : MRequestInit

/-- The `nativeFetch` helper of `response.ts`: pick `fetch.native` when the
global fetch is patched; else, when a patched `XMLHttpRequest` exists, run
the fetch polyfill against the restored native XHR; else use the global
`fetch` itself. -/
def nativeFetch (ctx : GlobalCtx) (input : RequestInfo) (init : MRequestInit) : FetchCall :=
  if ctx.fetchPatched then { prim := .fetchNative, input := input, init := init }
  else if ctx.hasXHR && ctx.xhrPatched then
    { prim := .polyfillWithNativeXHR, input := input, init := init }
  else { prim := .globalFetch, input := input, init := init }

/-- Does this network call re-enter the interception layer in context `ctx`?
`fetch.native` and the polyfill over native XHR never do; the bare global
`fetch` does exactly when it is patched. -/
def FetchCall.reenters (c : FetchCall) (ctx : GlobalCtx) : Bool :=
  match c.prim with
  | .fetchNative => false
  | .polyfillWithNativeXHR => false
  | .globalFetch => ctx.fetchPatched

/-- A finalized platform `Response`, built from body, headers, status and
status text. -/
structure FinalResponse where
  body : Option JsVal
  headers : HeadersM
  status : Int
  statusText : String

/-- What the deferred completion signal was resolved with: a constructed
`Response`, or the (adopted promise of the) result of a network call. -/
inductive Resolution where
  | response (r : FinalResponse)
  | network (c : FetchCall)

/-- `Defer#resolve`.  `Defer` lives in `src/lib/utils/`, which is not under
`src/` — modelled from the spec: the builder "owns exactly one deferred
completion signal …; resolution is idempotent-guarded — only the first
resolution has effect" (standard single-assignment promise semantics). -/
def resolveDefer (d : Option Resolution) (r : Resolution) : Option Resolution :=
  match d with
  | some v => some v
  | none => some r

/-! ## The response builder (`MockerResponse`, `src/lib/server/response.ts`) -/

/-- The mutable state of one `MockerResponse`.  `_deferred` is `none` while
the deferred completion signal is pending and `some` once resolved. -/
structure MockerResponse where
  headers : HeadersM
  _body : Option JsVal
  _statusCode : Int
  _deferred : Option Resolution
  _event : FetchEvent

/-- The null-body statuses of the fetch spec, as listed in `response.ts`. -/
def NULL_BODY_STATUS : List Int := [101, 204, 205, 304]

/-- `status(code)`: store the status code (chainable). -/
def MockerResponse.status (resp : MockerResponse) (code : Int) : MockerResponse :=
  { resp with _statusCode := code }

/-- `type(type)`: set the content-type header, resolving bare tokens (no
`/`) through the MIME collaborator. -/
def MockerResponse.type (resp : MockerResponse) (t : String) : MockerResponse :=
  let contentType := if (t.data.contains '/') = false then mimeLookup t else t
  { resp with headers := hSet resp.headers "content-type" contentType }

/-- `end()` (`end` is reserved in Lean, hence the prime): discard the body
for null-body statuses and HEAD requests, default the content-type to
text/plain, build the final `Response` and resolve the deferred signal —
a no-op on the signal if it is already resolved. -/
def MockerResponse.end' (resp : MockerResponse) : MockerResponse :=
  let responseBody := resp._body
  let responseBody :=
    if NULL_BODY_STATUS.contains resp._statusCode then none else responseBody
  let responseBody :=
    if resp._event.request.method = "HEAD" then none else responseBody
  let resp := if hHas resp.headers "content-type" then resp else resp.type "text"
  let response : FinalResponse :=
    { body := responseBody, headers := resp.headers,
      status := resp._statusCode, statusText := getStatusTextM resp._statusCode }
  { resp with _deferred := resolveDefer resp._deferred (.response response) }

/-- `json(body)`: store `JSON.stringify(body)` as the body, set the
content-type to JSON if unset, and call `end()`. -/
def MockerResponse.json (resp : MockerResponse) (body : JsVal) : MockerResponse :=
  let resp := { resp with _body := (jsStringify body).map JsVal.vstr }
  let resp := if hHas resp.headers "content-type" then resp else resp.type "json"
  resp.end'

/-- The shared tail of `send`: set the content-type if unset, call `end()`. -/
def sendWith (resp : MockerResponse) (contentType : String) : MockerResponse :=
  let resp := if hHas resp.headers "content-type" then resp else resp.type contentType
  resp.end'

/-- `send(body)`: dispatch on `typeof body` — strings are sent as HTML;
`Blob`/`ArrayBuffer` keep their own type (or the generic binary type);
other booleans/numbers/objects delegate to `json`; any other shape
(`undefined`, functions, symbols) falls through the `switch` leaving the
stored body untouched and the content-type token at `'text'`. -/
def MockerResponse.send (resp : MockerResponse) (body : JsVal) : MockerResponse :=
  match body with
  | .vstr s => sendWith { resp with _body := some (.vstr s) } "html"
  | .vbool b => resp.json (.vbool b)
  | .vnum n => resp.json (.vnum n)
  | .vnull => resp.json .vnull
  | .vobj j => resp.json (.vobj j)
  | .vblob t d => sendWith { resp with _body := some (.vblob t d) } (if t = "" then "bin" else t)
  | .vbuf d => sendWith { resp with _body := some (.vbuf d) } "bin"
  | .vundef => sendWith resp "text"
  | .vfunc => sendWith resp "text"
  | .vsym => sendWith resp "text"

/-- `sendStatus(code)`: text content-type, store the code, send its
canonical status text as the body. -/
def MockerResponse.sendStatus (resp : MockerResponse) (code : Int) : MockerResponse :=
  let resp := resp.type "text"
  let resp := { resp with _statusCode := code }
  resp.send (.vstr (getStatusTextM code))

/-- The `/form-data/` regular-expression test `forward` applies to the
content-type. -/
def hasFormDataToken (ct : String) : Bool := (ct.splitOn "form-data").length != 1

/-- The default body `forward` reads off a clone of the original request for
non-GET/HEAD methods: `formData()` for form data, `blob()` when a
content-type exists, `text()` otherwise. -/
def forwardDefaultBody (req : MRequest) : Option BodyInit :=
  if req.method ≠ "GET" ∧ req.method ≠ "HEAD" then
    match hGet req.headers "content-type" with
    | some ct =>
      if hasFormDataToken ct then some (.formDataOf req.body)
      else some (.blobOf req.body)
    | none => some (.textOf req.body)
  else none

/-- `forward(input, init?)`: when `input` is a `Request`, resolve the
deferred with `nativeFetch(input, init)` as given; when it is a URL, build
options that clone the original request's method/headers/body unless
overridden by `init`, force `mode: 'cors'` and `credentials: 'include'`,
and resolve the deferred with that native fetch. -/
def MockerResponse.forward (resp : MockerResponse) (ctx : GlobalCtx)
    (input : RequestInfo) (init : MRequestInit) : MockerResponse :=
  match input with
  | .request r =>
    { resp with _deferred :=
        resolveDefer resp._deferred (.network (nativeFetch ctx (.request r) init)) }
  | .url u =>
    let request := resp._event.request
    let options : MRequestInit :=
      { body :=
          match init.body with
          | some b => some b
          | none => forwardDefaultBody request,
        method := some (init.method.getD request.method),
        headers := some (init.headers.getD request.headers),
        mode := some "cors",
        credentials := some "include" }
    { resp with _deferred :=
        resolveDefer resp._deferred (.network (nativeFetch ctx (.url u) options)) }

/-- What `new MockerResponse(event)` produces besides the state: how many
times the constructor itself invoked `event.respondWith`, and the delay of
the safety timer it armed. -/
structure CtorResult where
  resp : MockerResponse
  respondWithCalls : Nat
  timerDelayMs : Nat

/-- The `MockerResponse` constructor: seed the identifying header, default
the status to 200, leave the body unset and the deferred pending;
synchronously call `event.respondWith(this._deferred.promise)` and arm the
10-second safety timer. -/
def MockerResponse.create (event : FetchEvent) : CtorResult :=
  { resp :=
      { headers := hSet [] "X-Powered-By" "ServiceMocker",
        _body := none,
        _statusCode := 200,
        _deferred := none,
        _event := event },
    respondWithCalls := 1,
    timerDelayMs := 10 * 1000 }

/-- Severity levels of the logging collaborator. -/
inductive LogLevel where
  | error
  | warn
deriving DecidableEq

/-- One emitted log message. -/
structure LogEntry where
  level : LogLevel
  msg : String

/-- The constructor's safety-timer callback, applied to the builder state at
fire time: a no-op when the deferred is settled; otherwise it logs (at error
level, via `responseLog.error`) and forwards the original request. -/
def ctorTimeoutCallback (ctx : GlobalCtx) (resp : MockerResponse) :
    MockerResponse × List LogEntry :=
  if resp._deferred.isSome then (resp, [])
  else (resp.forward ctx (.request resp._event.request) {},
    [{ level := .error, msg := "processing response timeout, forgot to call `res.end()`?" }])

/-- The two ways the deferred promise can settle. -/
inductive SettleKind where
  | fulfilled
  | rejected
deriving DecidableEq

/-- What a settle continuation does to the safety timer. -/
inductive TimerOp where
  | clearTimer
deriving DecidableEq

/-- `_deferred.promise.then(clear, clear)`: the fulfilled continuation and
the rejected continuation both clear the safety timer. -/
def ctorOnSettle : SettleKind → TimerOp
  | .fulfilled => .clearTimer
  | .rejected => .clearTimer

/-! ## The dispatcher (the `fetch` event listener of the server entry) -/

/-- One registered router as the dispatcher sees it: `_match` receives the
fetch event and the shared response builder, may mutate/resolve the builder,
and returns whether some route entry matched syntactically.
(`MockerRouter` lives in `router.ts`, which is not under `src/` — its return
value is modelled from the spec, §4.1: "attemptMatch … Returns whether at
least one entry matched syntactically".) -/
structure RouterM where
  attempt : FetchEvent → MockerResponse → MockerResponse × Bool

/-- `MockerRouter.routers.some((router) => router._match(event, response))`:
JavaScript's `Array.prototype.some` invokes the callback left to right and
short-circuits at the first `true`.  Returns the final builder state and how
many routers were actually invoked. -/
def routersSome : List RouterM → FetchEvent → MockerResponse → MockerResponse × Nat
  | [], _, resp => (resp, 0)
  | r :: rs, event, resp =>
    let p := r.attempt event resp
    if p.2 then (p.1, 1)
    else
      let q := routersSome rs event p.1
      (q.1, q.2 + 1)

/-- What one run of the fetch listener's synchronous part produces. -/
structure ListenerResult where
  resp : MockerResponse
  respondWithCalls : Nat
  routersAttempted : Nat
  fallbackDelayMs : Nat

/-- The dispatcher: construct the builder (whose constructor already calls
`event.respondWith`), call `event.respondWith(...)` a second time with the
same deferred promise (chained through a `resolved`-flag setter), ask the
routers via `.some`, and arm the 2-second global fallback timer. -/
def fetchListener (routers : List RouterM) (event : FetchEvent) : ListenerResult :=
  let ctor := MockerResponse.create event
  let listenerRespondWithCalls := 1
  let p := routersSome routers event ctor.resp
  { resp := p.1,
    respondWithCalls := ctor.respondWithCalls + listenerRespondWithCalls,
    routersAttempted := p.2,
    fallbackDelayMs := 2000 }

/-- The global fallback timer's callback, applied to the builder state at
fire time (the listener's `resolved` flag is, after microtasks drain, the
settledness of the deferred): a no-op when already resolved, otherwise
perform `fetch(event.request)` — the worker-global fetch, which does not
re-enter this worker's own interception — and resolve the deferred with its
result. -/
def listenerFallbackCallback (resp : MockerResponse) : MockerResponse :=
  if resp._deferred.isSome then resp
  else { resp with _deferred := some (.network
    { prim := .globalFetch, input := .request resp._event.request, init := {} }) }

/-! ## Handler call sequences on one builder -/

/-- One call a handler can make on the response builder (or directly on its
public `headers` map). -/
inductive ROp where
  | status (code : Int)
  | rtype (t : String)
  | setHeader (k v : String)
  | deleteHeader (k : String)
  | json (body : JsVal)
  | send (body : JsVal)
  | sendStatus (code : Int)
  | endCall

/-- Interpret one handler call. -/
def applyROp (resp : MockerResponse) : ROp → MockerResponse
  | .status c => resp.status c
  | .rtype t => resp.type t
  | .setHeader k v => { resp with headers := hSet resp.headers k v }
  | .deleteHeader k => { resp with headers := hDelete resp.headers k }
  | .json b => resp.json b
  | .send b => resp.send b
  | .sendStatus c => resp.sendStatus c
  | .endCall => resp.end'

/-- Interpret a sequence of handler calls, left to right. -/
def applyROps (resp : MockerResponse) (ops : List ROp) : MockerResponse :=
  ops.foldl applyROp resp

/-- Is this op one of the finalizers `end()`, `json()`, `send()`? -/
def isFinalizer : ROp → Bool
  | .json _ => true
  | .send _ => true
  | .endCall => true
  | _ => false

/-- Does this op write or delete the `X-Powered-By` header key? -/
def touchesPoweredBy : ROp → Bool
  | .setHeader k _ => hKey k == "x-powered-by"
  | .deleteHeader k => hKey k == "x-powered-by"
  | _ => false

/-! ## Observation helpers and concrete fixtures -/

/-- The constructed `Response` a resolved builder carries, when it was
resolved with a built response (rather than a network call). -/
def resolvedResponse (resp : MockerResponse) : Option FinalResponse :=
  match resp._deferred with
  | some (.response r) => some r
  | _ => none

/-- The network call a resolved builder carries, when it was resolved by
forwarding. -/
def resolvedNetworkCall (resp : MockerResponse) : Option FetchCall :=
  match resp._deferred with
  | some (.network c) => some c
  | _ => none

/-- The body of the finalized response (outer `none`: not resolved with a
built response; inner `Option`: the response body or its absence). -/
def finalizedBody (resp : MockerResponse) : Option (Option JsVal) :=
  (resolvedResponse resp).map FinalResponse.body

/-- A header of the finalized response. -/
def finalizedHeader (resp : MockerResponse) (k : String) : Option (Option String) :=
  (resolvedResponse resp).map (fun r => hGet r.headers k)

/-- The identifying header seed is present in the builder's header map, and
in any finalized response the builder has resolved with. -/
def keepsPoweredBy (resp : MockerResponse) : Prop :=
  hGet resp.headers "X-Powered-By" = some "ServiceMocker" ∧
  ∀ r, resolvedResponse resp = some r →
    hGet r.headers "X-Powered-By" = some "ServiceMocker"

/-- A sample intercepted GET request and its event. -/
def reqGet : MRequest :=
  { url := "https://example.com/a", method := "GET", headers := [], body := none }

/-- The event wrapping `reqGet`. -/
def evGet : FetchEvent := { request := reqGet }

/-- A sample intercepted HEAD request and its event. -/
def reqHead : MRequest :=
  { url := "https://example.com/h", method := "HEAD", headers := [], body := none }

/-- The event wrapping `reqHead`. -/
def evHead : FetchEvent := { request := reqHead }

/-- A global context in which nothing is patched (the service-worker case). -/
def swCtx : GlobalCtx := { fetchPatched := false, hasXHR := false, xhrPatched := false }

/-- A router whose `_match` reports a syntactic match and leaves the builder
untouched (a matching entry whose handler does nothing synchronously). -/
def routerMatchTrue : RouterM := { attempt := fun _ resp => (resp, true) }

/-- A router that marks the builder with a header, so that whether it was
ever attempted is observable in the final state. -/
def routerMarking : RouterM :=
  { attempt := fun _ resp =>
      ({ resp with headers := hSet resp.headers "x-marked" "yes" }, true) }

/-- The runtime value presenting a given JSON value to `json()`. -/
def jsonOfJVal : JVal → JsVal
  | .jnull => .vnull
  | .jbool b => .vbool b
  | .jnum n => .vnum n
  | .jstr s => .vstr (String.mk s)
  | .jarr xs => .vobj (.jarr xs)
  | .jobj fs => .vobj (.jobj fs)

/-- The response a fresh builder for `evGet` finalizes when `end()` is called
with nothing set. -/
def res0 : FinalResponse :=
  { body := none,
    headers := [("x-powered-by", "ServiceMocker"), ("content-type", "text/plain")],
    status := 200, statusText := "OK" }

/-- A builder that has already been resolved (by a plain `end()`). -/
def resolvedResp0 : MockerResponse := (MockerResponse.create evGet).resp.end'

/-- A sample JSON value exercising nesting, escapes and negative numbers. -/
def jW : JVal :=
  .jobj [("a".data, .jnum (-3)), ("b".data, .jarr [.jnull, .jstr ('x' :: '\n' :: [])])]

/-! ## Round-trip lemmas for the JSON collaborator model -/

/-- Does the remainder start with a non-digit (or end)?  A rendered number
followed by such a remainder parses back exactly. -/
def noDigitHead : List Char → Bool
  | [] => true
  | c :: _ => !isDigitCh c

theorem jweight_arr (xs : List JVal) : jweight (.jarr xs) = 1 + jweightElems xs := rfl

theorem jweight_obj (fs : List (List Char × JVal)) :
    jweight (.jobj fs) = 1 + jweightFields fs := rfl

theorem jweightElems_nil : jweightElems [] = 0 := rfl

theorem jweightElems_cons (x : JVal) (xs : List JVal) :
    jweightElems (x :: xs) = 1 + jweight x + jweightElems xs := rfl

theorem jweightFields_nil : jweightFields [] = 0 := rfl

theorem jweightFields_cons (k : List Char) (v : JVal) (fs : List (List Char × JVal)) :
    jweightFields ((k, v) :: fs) = 1 + jweight v + jweightFields fs := rfl

theorem noDigitHead_cons (c : Char) (t : List Char) (h : isDigitCh c = false) :
    noDigitHead (c :: t) = true := by simp [noDigitHead, h]

theorem digit_spec : ∀ d, d < 10 → digitVal (digitChar d) = d ∧ isDigitCh (digitChar d) = true := by
  decide

theorem natCharsGo_digits : ∀ fuel n acc, n < fuel → 0 < n →
    natCharsGo fuel n acc = ((Nat.digits 10 n).reverse.map digitChar) ++ acc := by
  intro fuel
  induction fuel with
  | zero => intro n acc hlt _; omega
  | succ f ih =>
    intro n acc hlt hpos
    rw [natCharsGo]
    rw [Nat.digits_def' (by norm_num : 1 < 10) hpos]
    by_cases h10 : n < 10
    · have hmod : n % 10 = n := Nat.mod_eq_of_lt h10
      have hdiv : n / 10 = 0 := by omega
      simp [h10, hmod, hdiv]
    · rw [if_neg h10, ih (n / 10) _ (by omega) (by omega)]
      simp

theorem natChars_eq_digits (n : Nat) (h : 0 < n) :
    natChars n = (Nat.digits 10 n).reverse.map digitChar := by
  rw [natChars, natCharsGo_digits (n + 1) n [] (by omega) h, List.append_nil]

theorem natChars_zero : natChars 0 = [digitChar 0] := rfl

theorem natChars_all_digits (n : Nat) : ∀ c ∈ natChars n, isDigitCh c = true := by
  rcases Nat.eq_zero_or_pos n with h | h
  · subst h; intro c hc
    rw [natChars_zero, List.mem_singleton] at hc
    subst hc
    exact (digit_spec 0 (by omega)).2
  · rw [natChars_eq_digits n h]
    intro c hc
    rw [List.mem_map] at hc
    obtain ⟨d, hd, rfl⟩ := hc
    rw [List.mem_reverse] at hd
    exact (digit_spec d (Nat.digits_lt_base (by norm_num) hd)).2

theorem natChars_ne_nil (n : Nat) : natChars n ≠ [] := by
  rcases Nat.eq_zero_or_pos n with h | h
  · subst h; rw [natChars_zero]; simp
  · rw [natChars_eq_digits n h]
    simp [Nat.digits_ne_nil_iff_ne_zero, Nat.pos_iff_ne_zero.mp h]

theorem foldr_ofDigits (ds : List Nat) :
    ds.foldr (fun d a => 10 * a + d) 0 = Nat.ofDigits 10 ds := by
  induction ds with
  | nil => simp [Nat.ofDigits]
  | cons d t ih => simp [Nat.ofDigits_cons, ih]; omega

theorem natOfChars_natChars (n : Nat) : natOfChars (natChars n) = n := by
  rcases Nat.eq_zero_or_pos n with h | h
  · subst h; rfl
  · rw [natChars_eq_digits n h, natOfChars, List.foldl_map, List.foldl_reverse]
    have hcong : ∀ l : List Nat, (∀ d ∈ l, d < 10) →
        l.foldr (fun x y => 10 * y + digitVal (digitChar x)) 0
          = l.foldr (fun d a => 10 * a + d) 0 := by
      intro l
      induction l with
      | nil => intro _; rfl
      | cons d t ih =>
        intro hl
        have hd : digitVal (digitChar d) = d := (digit_spec d (hl d (by simp))).1
        simp only [List.foldr_cons, hd, ih (fun x hx => hl x (by simp [hx]))]
    rw [hcong _ (fun d hd => Nat.digits_lt_base (by norm_num) hd), foldr_ofDigits,
      Nat.ofDigits_digits]

theorem spanDigits_append (ds : List Char) (hds : ∀ c ∈ ds, isDigitCh c = true) :
    ∀ rest, noDigitHead rest = true → spanDigits (ds ++ rest) = (ds, rest) := by
  induction ds with
  | nil =>
    intro rest hrest
    cases rest with
    | nil => rfl
    | cons c t =>
      simp only [noDigitHead, Bool.not_eq_true'] at hrest
      simp [spanDigits, hrest]
  | cons c t ih =>
    intro rest hrest
    have hc : isDigitCh c = true := hds c (by simp)
    simp only [List.cons_append, spanDigits, hc, if_true, List.append_eq]
    rw [ih (fun x hx => hds x (by simp [hx])) rest hrest]

theorem parseNatCh_natChars (n : Nat) (rest : List Char) (hrest : noDigitHead rest = true) :
    parseNatCh (natChars n ++ rest) = some (n, rest) := by
  rw [parseNatCh, spanDigits_append (natChars n) (natChars_all_digits n) rest hrest]
  have h := natOfChars_natChars n
  cases hnc : natChars n with
  | nil => exact absurd hnc (natChars_ne_nil n)
  | cons c t =>
    rw [hnc] at h
    simp [h]

theorem eatChars_append (lit : List Char) : ∀ rest, eatChars lit (lit ++ rest) = some rest := by
  induction lit with
  | nil => intro rest; rfl
  | cons l ls ih => intro rest; simp [eatChars, ih]

theorem parseStrBody_quote (s : List Char) :
    ∀ rest, parseStrBody (escBody s ++ '"' :: rest) = some (s, rest) := by
  induction s with
  | nil => intro rest; simp [escBody, parseStrBody]
  | cons c t ih =>
    intro rest
    have hstep : escBody (c :: t) = escSeq c ++ escBody t := rfl
    rw [hstep, List.append_assoc]
    by_cases h1 : c = '"'
    · subst h1; simp [escSeq, parseStrBody, parseEscTail, unescCh, ih]
    · by_cases h2 : c = '\\'
      · subst h2; simp [escSeq, parseStrBody, parseEscTail, unescCh, ih]
      · by_cases h3 : c = '\n'
        · subst h3; simp [escSeq, parseStrBody, parseEscTail, unescCh, ih]
        · by_cases h4 : c = '\t'
          · subst h4; simp [escSeq, parseStrBody, parseEscTail, unescCh, ih]
          · by_cases h5 : c = '\r'
            · subst h5; simp [escSeq, parseStrBody, parseEscTail, unescCh, ih]
            · rw [escSeq, if_neg h1, if_neg h2, if_neg h3, if_neg h4, if_neg h5]
              simp only [List.cons_append, List.nil_append]
              rw [parseStrBody, if_neg h1, if_neg h2, ih]

theorem digitCh_ne_markers {c : Char} (h : isDigitCh c = true) :
    c ≠ 'n' ∧ c ≠ 't' ∧ c ≠ 'f' ∧ c ≠ '"' ∧ c ≠ '-' ∧ c ≠ ']' ∧ c ≠ obrace ∧ c ≠ cbrace := by
  refine ⟨?_, ?_, ?_, ?_, ?_, ?_, ?_, ?_⟩ <;>
    (intro hc; rw [hc] at h; exact absurd h (by decide))

theorem natChars_cons (m : Nat) : ∃ c t, natChars m = c :: t ∧ isDigitCh c = true := by
  cases hnc : natChars m with
  | nil => exact absurd hnc (natChars_ne_nil m)
  | cons c t =>
    exact ⟨c, t, rfl, natChars_all_digits m c (hnc ▸ List.mem_cons_self c t)⟩

theorem jparse_intChars (f : Nat) (n : Int) (rest : List Char)
    (hrest : noDigitHead rest = true) :
    jparse (f + 1) (intChars n ++ rest) = some (.jnum n, rest) := by
  by_cases hn : n < 0
  · rw [intChars, if_pos hn, List.cons_append, jparse,
      if_neg (by decide), if_neg (by decide), if_neg (by decide), if_neg (by decide),
      if_pos rfl, parseNatCh_natChars n.natAbs rest hrest]
    have habs : -((n.natAbs : Int)) = n := by omega
    rw [Option.map_some', habs]
  · rw [intChars, if_neg hn]
    obtain ⟨c, t, hnc, hdig⟩ := natChars_cons n.natAbs
    obtain ⟨hn', ht', hf', hq', hm', _, _, _⟩ := digitCh_ne_markers hdig
    rw [hnc, List.cons_append, jparse,
      if_neg hn', if_neg ht', if_neg hf', if_neg hq', if_neg hm', if_pos hdig,
      ← List.cons_append, ← hnc, parseNatCh_natChars n.natAbs rest hrest]
    have habs : ((n.natAbs : Int)) = n := by omega
    rw [Option.map_some', habs]

theorem jsonStr_head (v : JVal) : ∃ c t, jsonStr v = c :: t ∧ c ≠ ']' := by
  cases v with
  | jnull => exact ⟨'n', _, rfl, by decide⟩
  | jbool b => cases b with
    | true => exact ⟨'t', _, rfl, by decide⟩
    | false => exact ⟨'f', _, rfl, by decide⟩
  | jstr s => exact ⟨'"', _, rfl, by decide⟩
  | jarr xs => exact ⟨'[', _, rfl, by decide⟩
  | jobj fs => exact ⟨obrace, _, rfl, by decide⟩
  | jnum n =>
    by_cases hn : n < 0
    · exact ⟨'-', _, by rw [jsonStr, intChars, if_pos hn], by decide⟩
    · obtain ⟨c, t, hnc, hdig⟩ := natChars_cons n.natAbs
      exact ⟨c, t, by rw [jsonStr, intChars, if_neg hn, hnc],
        (digitCh_ne_markers hdig).2.2.2.2.2.1⟩

theorem jweight_pos (v : JVal) : 1 ≤ jweight v := by
  cases v <;> simp [jweight]

theorem jsonStrElems_head (x : JVal) (xs : List JVal) (suffix : List Char) :
    ∃ c t, jsonStrElems (x :: xs) ++ suffix = c :: t ∧ c ≠ ']' := by
  obtain ⟨c, t0, hx, hne⟩ := jsonStr_head x
  cases xs with
  | nil =>
    exact ⟨c, t0 ++ suffix, by rw [jsonStrElems, hx, List.cons_append], hne⟩
  | cons y ys =>
    exact ⟨c, t0 ++ (',' :: jsonStrElems (y :: ys) ++ suffix), by
      rw [jsonStrElems, hx]; simp, hne⟩

theorem jsonStrFields_head (k : List Char) (v : JVal) (fs : List (List Char × JVal))
    (suffix : List Char) :
    ∃ t, jsonStrFields ((k, v) :: fs) ++ suffix
      = '"' :: (escBody k ++ '"' :: (':' :: (jsonStr v ++ t))) ∧
      (fs = [] → t = suffix) := by
  cases fs with
  | nil =>
    refine ⟨suffix, ?_, fun _ => rfl⟩
    rw [jsonStrFields, quoteStr]
    simp
  | cons f2 fs2 =>
    refine ⟨',' :: jsonStrFields (f2 :: fs2) ++ suffix, ?_, by simp⟩
    rw [jsonStrFields, quoteStr]
    simp

theorem jparse_sound : ∀ fuel : Nat,
    (∀ v rest, jweight v ≤ fuel → noDigitHead rest = true →
      jparse fuel (jsonStr v ++ rest) = some (v, rest)) ∧
    (∀ x xs rest, 1 + jweight x + jweightElems xs ≤ fuel → noDigitHead rest = true →
      jparseElems fuel (jsonStrElems (x :: xs) ++ ']' :: rest) = some (x :: xs, rest)) ∧
    (∀ k v fs rest, 1 + jweight v + jweightFields fs ≤ fuel → noDigitHead rest = true →
      jparseFields fuel (jsonStrFields ((k, v) :: fs) ++ cbrace :: rest)
        = some ((k, v) :: fs, rest)) := by
  intro fuel
  induction fuel with
  | zero =>
    refine ⟨?_, ?_, ?_⟩
    · intro v rest hw _; have := jweight_pos v; omega
    · intro x xs rest hw _; omega
    · intro k v fs rest hw _; omega
  | succ f ih =>
    obtain ⟨ihV, ihE, ihF⟩ := ih
    refine ⟨?_, ?_, ?_⟩
    · intro v rest hw hrest
      cases v with
      | jnull => simp [jsonStr, jparse, eatChars]
      | jbool b => cases b <;> simp [jsonStr, jparse, eatChars]
      | jnum n => exact jparse_intChars f n rest hrest
      | jstr s =>
        have hin : jsonStr (.jstr s) ++ rest = '"' :: (escBody s ++ '"' :: rest) := by
          rw [jsonStr, quoteStr]; simp
        rw [hin, jparse, if_neg (by decide), if_neg (by decide), if_neg (by decide),
          if_pos rfl, parseStrBody_quote]
        rfl
      | jarr xs =>
        cases xs with
        | nil =>
          simp [jsonStr, jsonStrElems, jparse]
          decide
        | cons x xs' =>
          have hw' : 1 + jweight x + jweightElems xs' ≤ f := by
            rw [jweight_arr, jweightElems_cons] at hw; omega
          have hin : jsonStr (.jarr (x :: xs')) ++ rest
              = '[' :: (jsonStrElems (x :: xs') ++ ']' :: rest) := by
            rw [jsonStr]; simp
          rw [hin, jparse, if_neg (by decide), if_neg (by decide), if_neg (by decide),
            if_neg (by decide), if_neg (by decide), if_neg (by decide), if_pos rfl]
          obtain ⟨c, t, hcs, hne⟩ := jsonStrElems_head x xs' (']' :: rest)
          rw [hcs, if_neg (by simp [hne]), ← hcs, ihE x xs' rest hw' hrest]
          rfl
      | jobj fs =>
        cases fs with
        | nil =>
          have hin : jsonStr (.jobj []) ++ rest = obrace :: cbrace :: rest := by
            rw [jsonStr, jsonStrFields]; rfl
          rw [hin, jparse, if_neg (by decide), if_neg (by decide), if_neg (by decide),
            if_neg (by decide), if_neg (by decide), if_neg (by decide), if_neg (by decide),
            if_pos rfl, if_pos (by rw [List.head?_cons])]
          rfl
        | cons kv fs' =>
          obtain ⟨k, v⟩ := kv
          have hw' : 1 + jweight v + jweightFields fs' ≤ f := by
            rw [jweight_obj, jweightFields_cons] at hw; omega
          have hin : jsonStr (.jobj ((k, v) :: fs')) ++ rest
              = obrace :: (jsonStrFields ((k, v) :: fs') ++ cbrace :: rest) := by
            rw [jsonStr]; simp
          rw [hin, jparse, if_neg (by decide), if_neg (by decide), if_neg (by decide),
            if_neg (by decide), if_neg (by decide), if_neg (by decide), if_neg (by decide),
            if_pos rfl]
          obtain ⟨t, hcs, _⟩ := jsonStrFields_head k v fs' (cbrace :: rest)
          rw [hcs, if_neg (by simp only [List.head?_cons, Option.some.injEq]; decide),
            ← hcs, ihF k v fs' rest hw' hrest]
          rfl
    · intro x xs rest hw hrest
      cases xs with
      | nil =>
        have hwx : jweight x ≤ f := by rw [jweightElems_nil] at hw; omega
        rw [jsonStrElems, jparseElems,
          ihV x (']' :: rest) hwx (noDigitHead_cons _ _ (by decide))]
        simp
      | cons y ys =>
        have hwx : jweight x ≤ f := by
          rw [jweightElems_cons] at hw; omega
        have hw2 : 1 + jweight y + jweightElems ys ≤ f := by
          rw [jweightElems_cons] at hw; omega
        rw [jsonStrElems, jparseElems]
        have hassoc : (jsonStr x ++ ',' :: jsonStrElems (y :: ys)) ++ ']' :: rest
            = jsonStr x ++ (',' :: (jsonStrElems (y :: ys) ++ ']' :: rest)) := by simp
        rw [hassoc, ihV x (',' :: (jsonStrElems (y :: ys) ++ ']' :: rest)) hwx
          (noDigitHead_cons _ _ (by decide))]
        simp only [List.head?_cons, Option.some.injEq, if_true,
          ihE y ys rest hw2 hrest, Option.map_some', List.tail_cons]
    · intro k v fs rest hw hrest
      have hwv : jweight v ≤ f := by omega
      cases fs with
      | nil =>
        have hin : jsonStrFields [(k, v)] ++ cbrace :: rest
            = '"' :: (escBody k ++ '"' :: (':' :: (jsonStr v ++ cbrace :: rest))) := by
          rw [jsonStrFields, quoteStr]; simp
        rw [hin, jparseFields, if_pos (by rw [List.head?_cons]), List.tail_cons,
          parseStrBody_quote]
        simp only [List.head?_cons, Option.some.injEq, if_true]
        rw [List.tail_cons, ihV v (cbrace :: rest) hwv (noDigitHead_cons _ _ (by decide))]
        simp only [List.head?_cons, Option.some.injEq,
          if_neg (by decide : ¬(cbrace = ',')), if_true, List.tail_cons]
      | cons kv2 fs2 =>
        obtain ⟨k2, v2⟩ := kv2
        have hw2 : 1 + jweight v2 + jweightFields fs2 ≤ f := by
          rw [jweightFields_cons] at hw; omega
        have hin : jsonStrFields ((k, v) :: (k2, v2) :: fs2) ++ cbrace :: rest
            = '"' :: (escBody k ++ '"' :: (':' :: (jsonStr v
                ++ (',' :: (jsonStrFields ((k2, v2) :: fs2) ++ cbrace :: rest))))) := by
          rw [jsonStrFields, quoteStr]; simp
        rw [hin, jparseFields, if_pos (by rw [List.head?_cons]), List.tail_cons,
          parseStrBody_quote]
        simp only [List.head?_cons, Option.some.injEq, if_true]
        rw [List.tail_cons,
          ihV v (',' :: (jsonStrFields ((k2, v2) :: fs2) ++ cbrace :: rest)) hwv
            (noDigitHead_cons _ _ (by decide))]
        simp only [List.head?_cons, Option.some.injEq, if_true, List.tail_cons]
        rw [ihF k2 v2 fs2 rest hw2 hrest]
        rfl

theorem intChars_len_pos (n : Int) : 1 ≤ (intChars n).length := by
  rw [intChars]
  split
  · simp
  · cases hnc : natChars n.natAbs with
    | nil => exact absurd hnc (natChars_ne_nil _)
    | cons c t => simp [hnc]

mutual

theorem jweight_le_len : ∀ v : JVal, jweight v ≤ (jsonStr v).length
  | .jnull => by simp [jweight, jsonStr]
  | .jbool b => by cases b <;> simp [jweight, jsonStr]
  | .jnum n => by
    have := intChars_len_pos n
    simp only [jweight, jsonStr]
    omega
  | .jstr s => by simp [jweight, jsonStr, quoteStr]
  | .jarr xs => by
    have hb := jweightElems_le_len xs
    simp only [jweight_arr, jsonStr, List.length_cons, List.length_append]
    omega
  | .jobj fs => by
    have hb := jweightFields_le_len fs
    simp only [jweight_obj, jsonStr, List.length_cons, List.length_append]
    omega
termination_by structural v => v

theorem jweightElems_le_len : ∀ xs : List JVal, jweightElems xs ≤ (jsonStrElems xs).length + 1
  | [] => by simp [jweightElems_nil, jsonStrElems]
  | [x] => by
    have h1 := jweight_le_len x
    simp only [jweightElems_cons, jweightElems_nil, jsonStrElems]
    omega
  | x :: y :: xs => by
    have h1 := jweight_le_len x
    have h2 := jweightElems_le_len (y :: xs)
    simp only [jweightElems_cons] at h2 ⊢
    simp only [jsonStrElems, List.length_append, List.length_cons]
    omega
termination_by structural l => l

theorem jweightFields_le_len :
    ∀ fs : List (List Char × JVal), jweightFields fs ≤ (jsonStrFields fs).length + 1
  | [] => by simp [jweightFields_nil, jsonStrFields]
  | [(k, v)] => by
    have h1 := jweight_le_len v
    simp only [jweightFields_cons, jweightFields_nil, jsonStrFields]
    simp only [List.length_append, List.length_cons]
    omega
  | (k, v) :: f2 :: fs => by
    have h1 := jweight_le_len v
    have h2 := jweightFields_le_len (f2 :: fs)
    simp only [jsonStrFields, List.length_append, List.length_cons]
    simp only [jweightFields_cons] at h2 ⊢
    omega
termination_by structural l => l

end

/-- The JSON codec round-trip: parsing the serializer's output recovers the
value exactly. -/
theorem jsonParse_jsonStr (v : JVal) : jsonParse (jsonStr v) = some v := by
  have h := (jparse_sound ((jsonStr v).length + 1)).1 v []
    (by have := jweight_le_len v; omega) rfl
  rw [List.append_nil] at h
  rw [jsonParse, h]

/-! ## Header-map lemmas -/

theorem hGetGo_hSetGo_ne (key key' v : String) (h : key' ≠ key) :
    ∀ hs : HeadersM, hGetGo key' (hSetGo key v hs) = hGetGo key' hs := by
  intro hs
  induction hs with
  | nil => simp [hSetGo, hGetGo, Ne.symm h]
  | cons p t ih =>
    by_cases hp : p.1 = key
    · simp [hSetGo, hGetGo, hp, Ne.symm h, fun hk => h (hp ▸ hk)]
    · simp only [hSetGo, if_neg hp, hGetGo]
      by_cases hq : p.1 = key'
      · simp [hq]
      · simp [hq, ih]

theorem hGetGo_hSetGo_self (key v : String) :
    ∀ hs : HeadersM, hGetGo key (hSetGo key v hs) = some v := by
  intro hs
  induction hs with
  | nil => simp [hSetGo, hGetGo]
  | cons p t ih =>
    by_cases hp : p.1 = key
    · simp [hSetGo, hGetGo, hp]
    · simp [hSetGo, hGetGo, hp, ih]

theorem hGet_hSet_ne (hs : HeadersM) (k k' v : String) (h : hKey k' ≠ hKey k) :
    hGet (hSet hs k v) k' = hGet hs k' :=
  hGetGo_hSetGo_ne (hKey k) (hKey k') v h hs

theorem hGet_hSet_self (hs : HeadersM) (k k' v : String) (h : hKey k' = hKey k) :
    hGet (hSet hs k v) k' = some v := by
  rw [hGet, h]
  exact hGetGo_hSetGo_self (hKey k) v hs

theorem hGet_hDelete_ne (hs : HeadersM) (k k' : String) (h : hKey k' ≠ hKey k) :
    hGet (hDelete hs k) k' = hGet hs k' := by
  rw [hGet, hGet, hDelete]
  induction hs with
  | nil => rfl
  | cons p t ih =>
    rw [List.filter_cons]
    by_cases hp : p.1 = hKey k
    · rw [if_neg (by simp [hp]), hGetGo, if_neg (fun hq => h (hq.symm.trans hp))]
      exact ih
    · rw [if_pos (by simp [bne_iff_ne, hp]), hGetGo, hGetGo]
      by_cases hq : p.1 = hKey k'
      · simp [hq]
      · simp only [if_neg hq]
        exact ih

/-! ## Response-builder lemmas -/

theorem type_headers (resp : MockerResponse) (t : String) :
    (resp.type t).headers
      = hSet resp.headers "content-type"
          (if (t.data.contains '/') = false then mimeLookup t else t) := rfl

theorem type_text_headers (resp : MockerResponse) :
    (resp.type "text").headers = hSet resp.headers "content-type" "text/plain" := rfl

theorem type_json_headers (resp : MockerResponse) :
    (resp.type "json").headers = hSet resp.headers "content-type" "application/json" := rfl

theorem type_deferred (resp : MockerResponse) (t : String) :
    (resp.type t)._deferred = resp._deferred := rfl

theorem type_body (resp : MockerResponse) (t : String) :
    (resp.type t)._body = resp._body := rfl

theorem type_statusCode (resp : MockerResponse) (t : String) :
    (resp.type t)._statusCode = resp._statusCode := rfl

theorem end'_deferred_resolved (resp : MockerResponse) (r : Resolution)
    (h : resp._deferred = some r) : (resp.end')._deferred = some r := by
  rw [MockerResponse.end']
  simp only [apply_ite MockerResponse._deferred, type_deferred, ite_self, h, resolveDefer]

theorem end'_deferred_isSome (resp : MockerResponse) :
    ((resp.end')._deferred).isSome = true := by
  rw [MockerResponse.end']
  simp only [apply_ite MockerResponse._deferred, type_deferred, ite_self]
  cases h : resp._deferred <;> simp [resolveDefer]

theorem end'_headers (resp : MockerResponse) :
    (resp.end').headers
      = if hHas resp.headers "content-type" then resp.headers
        else hSet resp.headers "content-type" "text/plain" := by
  rw [MockerResponse.end']
  simp only [apply_ite MockerResponse.headers, type_text_headers]

theorem end'_finalized (resp : MockerResponse) (hp : resp._deferred = none) :
    resolvedResponse (resp.end')
      = some { body := if resp._event.request.method = "HEAD" then none
                       else if NULL_BODY_STATUS.contains resp._statusCode then none
                       else resp._body,
               headers := if hHas resp.headers "content-type" then resp.headers
                          else hSet resp.headers "content-type" "text/plain",
               status := resp._statusCode,
               statusText := getStatusTextM resp._statusCode } := by
  rw [resolvedResponse, MockerResponse.end']
  simp only [apply_ite MockerResponse._deferred, apply_ite MockerResponse.headers,
    apply_ite MockerResponse._statusCode, type_deferred, type_text_headers,
    type_statusCode, ite_self, hp, resolveDefer]

theorem json_deferred_resolved (resp : MockerResponse) (b : JsVal) (r : Resolution)
    (h : resp._deferred = some r) : (resp.json b)._deferred = some r := by
  rw [MockerResponse.json]
  apply end'_deferred_resolved
  simp only [apply_ite MockerResponse._deferred, type_deferred, ite_self]
  exact h

theorem sendWith_deferred_resolved (resp : MockerResponse) (ct : String) (r : Resolution)
    (h : resp._deferred = some r) : (sendWith resp ct)._deferred = some r := by
  rw [sendWith]
  apply end'_deferred_resolved
  simp only [apply_ite MockerResponse._deferred, type_deferred, ite_self]
  exact h

theorem send_deferred_resolved (resp : MockerResponse) (b : JsVal) (r : Resolution)
    (h : resp._deferred = some r) : (resp.send b)._deferred = some r := by
  cases b with
  | vstr s => exact sendWith_deferred_resolved _ _ r h
  | vbool bb => exact json_deferred_resolved _ _ r h
  | vnum n => exact json_deferred_resolved _ _ r h
  | vnull => exact json_deferred_resolved _ _ r h
  | vobj j => exact json_deferred_resolved _ _ r h
  | vblob t d => exact sendWith_deferred_resolved _ _ r h
  | vbuf d => exact sendWith_deferred_resolved _ _ r h
  | vundef => exact sendWith_deferred_resolved _ _ r h
  | vfunc => exact sendWith_deferred_resolved _ _ r h
  | vsym => exact sendWith_deferred_resolved _ _ r h

/-! ## Preservation of the identifying header -/

theorem hGet_pb_type (resp : MockerResponse) (t : String) :
    hGet (resp.type t).headers "X-Powered-By" = hGet resp.headers "X-Powered-By" := by
  rw [type_headers]
  exact hGet_hSet_ne _ _ _ _ (by decide)

theorem keeps_end' (resp : MockerResponse) (h : keepsPoweredBy resp) :
    keepsPoweredBy (resp.end') := by
  obtain ⟨h1, h2⟩ := h
  have hhd : hGet (resp.end').headers "X-Powered-By" = some "ServiceMocker" := by
    rw [end'_headers]
    split
    · exact h1
    · rw [hGet_hSet_ne _ _ _ _ (by decide)]
      exact h1
  refine ⟨hhd, ?_⟩
  intro r hr
  cases hd : resp._deferred with
  | none =>
    rw [end'_finalized resp hd] at hr
    have hre := (Option.some.injEq _ _).mp hr
    have : r.headers = if hHas resp.headers "content-type" then resp.headers
        else hSet resp.headers "content-type" "text/plain" := by
      rw [← hre]
    rw [this]
    split
    · exact h1
    · rw [hGet_hSet_ne _ _ _ _ (by decide)]
      exact h1
  | some res =>
    have hdef := end'_deferred_resolved resp res hd
    rw [resolvedResponse, hdef] at hr
    apply h2 r
    rw [resolvedResponse, hd]
    exact hr

theorem keeps_json (resp : MockerResponse) (b : JsVal) (h : keepsPoweredBy resp) :
    keepsPoweredBy (resp.json b) := by
  obtain ⟨h1, h2⟩ := h
  rw [MockerResponse.json]
  apply keeps_end'
  constructor
  · simp only [apply_ite MockerResponse.headers]
    split
    · exact h1
    · rw [hGet_pb_type]
      exact h1
  · intro r hr
    apply h2 r
    rw [resolvedResponse] at hr ⊢
    simp only [apply_ite MockerResponse._deferred, type_deferred, ite_self] at hr
    exact hr

theorem keeps_sendWith (resp : MockerResponse) (ct : String) (h : keepsPoweredBy resp) :
    keepsPoweredBy (sendWith resp ct) := by
  obtain ⟨h1, h2⟩ := h
  rw [sendWith]
  apply keeps_end'
  constructor
  · simp only [apply_ite MockerResponse.headers]
    split
    · exact h1
    · rw [hGet_pb_type]
      exact h1
  · intro r hr
    apply h2 r
    rw [resolvedResponse] at hr ⊢
    simp only [apply_ite MockerResponse._deferred, type_deferred, ite_self] at hr
    exact hr

theorem keeps_body_update (resp : MockerResponse) (b : Option JsVal)
    (h : keepsPoweredBy resp) : keepsPoweredBy { resp with _body := b } := h

theorem keeps_send (resp : MockerResponse) (b : JsVal) (h : keepsPoweredBy resp) :
    keepsPoweredBy (resp.send b) := by
  cases b with
  | vstr s => exact keeps_sendWith _ _ (keeps_body_update resp _ h)
  | vbool bb => exact keeps_json _ _ h
  | vnum n => exact keeps_json _ _ h
  | vnull => exact keeps_json _ _ h
  | vobj j => exact keeps_json _ _ h
  | vblob t d => exact keeps_sendWith _ _ (keeps_body_update resp _ h)
  | vbuf d => exact keeps_sendWith _ _ (keeps_body_update resp _ h)
  | vundef => exact keeps_sendWith _ _ h
  | vfunc => exact keeps_sendWith _ _ h
  | vsym => exact keeps_sendWith _ _ h

theorem keeps_type (resp : MockerResponse) (t : String) (h : keepsPoweredBy resp) :
    keepsPoweredBy (resp.type t) := by
  obtain ⟨h1, h2⟩ := h
  exact ⟨by rw [hGet_pb_type]; exact h1, h2⟩

theorem keeps_status_update (resp : MockerResponse) (c : Int)
    (h : keepsPoweredBy resp) : keepsPoweredBy (resp.status c) := h

theorem keeps_sendStatus (resp : MockerResponse) (c : Int) (h : keepsPoweredBy resp) :
    keepsPoweredBy (resp.sendStatus c) := by
  rw [MockerResponse.sendStatus]
  exact keeps_send _ _ (keeps_status_update _ _ (keeps_type _ _ h))

theorem keeps_applyROp (resp : MockerResponse) (op : ROp)
    (h : keepsPoweredBy resp) (hop : touchesPoweredBy op = false) :
    keepsPoweredBy (applyROp resp op) := by
  obtain ⟨h1, h2⟩ := h
  cases op with
  | status c => exact ⟨h1, h2⟩
  | rtype t => exact keeps_type resp t ⟨h1, h2⟩
  | setHeader k v =>
    have hk : hKey k ≠ "x-powered-by" := by
      rw [touchesPoweredBy] at hop
      simpa using hop
    refine ⟨?_, h2⟩
    rw [applyROp]
    have : hKey "X-Powered-By" = "x-powered-by" := by decide
    rw [hGet_hSet_ne _ _ _ _ (by rw [this]; exact fun he => hk he.symm)]
    exact h1
  | deleteHeader k =>
    have hk : hKey k ≠ "x-powered-by" := by
      rw [touchesPoweredBy] at hop
      simpa using hop
    refine ⟨?_, h2⟩
    rw [applyROp]
    have : hKey "X-Powered-By" = "x-powered-by" := by decide
    rw [hGet_hDelete_ne _ _ _ (by rw [this]; exact fun he => hk he.symm)]
    exact h1
  | json b => exact keeps_json resp b ⟨h1, h2⟩
  | send b => exact keeps_send resp b ⟨h1, h2⟩
  | sendStatus c => exact keeps_sendStatus resp c ⟨h1, h2⟩
  | endCall => exact keeps_end' resp ⟨h1, h2⟩

theorem keeps_applyROps (resp : MockerResponse) (ops : List ROp)
    (h : keepsPoweredBy resp) (hops : ∀ op ∈ ops, touchesPoweredBy op = false) :
    keepsPoweredBy (applyROps resp ops) := by
  induction ops generalizing resp with
  | nil => exact h
  | cons op t ih =>
    exact ih (applyROp resp op)
      (keeps_applyROp resp op h (hops op (by simp)))
      (fun o ho => hops o (by simp [ho]))

theorem keeps_create (event : FetchEvent) :
    keepsPoweredBy (MockerResponse.create event).resp :=
  ⟨rfl, fun _ hr => Option.noConfusion hr⟩

/-! ## The claims -/

/-- C1 (amended): the dispatcher asks the registered routers in registration
order, but `Array.prototype.some` short-circuits — when a router's `_match`
returns `true`, the routers after it are never attempted and the dispatch
result does not depend on them; only when it returns `false` does the loop
continue to the remaining routers. -/
theorem C1_dispatch_short_circuits (r : RouterM) (rs : List RouterM)
    (event : FetchEvent) (resp : MockerResponse) :
    ((r.attempt event resp).2 = true →
      routersSome (r :: rs) event resp = ((r.attempt event resp).1, 1)) ∧
    ((r.attempt event resp).2 = false →
      routersSome (r :: rs) event resp
        = ((routersSome rs event (r.attempt event resp).1).1,
           (routersSome rs event (r.attempt event resp).1).2 + 1)) := by
  constructor
  · intro h
    rw [routersSome]
    simp only [h, if_true]
  · intro h
    rw [routersSome]
    simp only [h, if_false, Bool.false_eq_true]

/-- C1 witness: with a first router that reports a match, the second is never
reached. -/
theorem C1_dispatch_short_circuits_witness :
    routersSome [routerMatchTrue, routerMarking] evGet (MockerResponse.create evGet).resp
      = ((MockerResponse.create evGet).resp, 1) :=
  (C1_dispatch_short_circuits routerMatchTrue [routerMarking] evGet
    (MockerResponse.create evGet).resp).1 rfl

/-- C1 counterexample: two routers are registered, both of whose `_match`
would report a match, yet the dispatcher attempts only the first one — the
second router's observable effect (a marker header) is absent from the final
builder state.  This falsifies the claim that every router in the registry is
always asked and that the syntactic-match return value is never used to stop
the dispatch loop. -/
theorem C1_dispatch_counterexample :
    (fetchListener [routerMatchTrue, routerMarking] evGet).routersAttempted = 1 ∧
    [routerMatchTrue, routerMarking].length = 2 ∧
    (fetchListener [routerMatchTrue, routerMarking] evGet).resp.headers
      = (MockerResponse.create evGet).resp.headers :=
  ⟨rfl, rfl, rfl⟩

/-- C2: the code invokes the platform's respond-with contract twice for every
intercepted event — once inside the `MockerResponse` constructor
(`response.ts` line 48) and a second time in the fetch listener itself — so
the claim "invoked exactly once … never invoked a second time" fails on the
code; on the real platform the second call throws an `InvalidStateError`.
This theorem evaluates the model at any event: the dispatch run performs two
`respondWith` invocations. -/
theorem C2_respondWith_called_twice (routers : List RouterM) (event : FetchEvent) :
    (fetchListener routers event).respondWithCalls = 2 ∧
    (MockerResponse.create event).respondWithCalls = 1 :=
  ⟨rfl, rfl⟩

/-- C3: resolution of the builder is idempotent — once the deferred signal
holds a resolution, any further sequence of `end()`, `json()`, `send()`
calls leaves that (platform-visible) resolution unchanged. -/
theorem C3_resolution_idempotent (resp : MockerResponse) (r : Resolution)
    (ops : List ROp) (h : resp._deferred = some r)
    (hops : ∀ op ∈ ops, isFinalizer op = true) :
    (applyROps resp ops)._deferred = some r := by
  induction ops generalizing resp with
  | nil => exact h
  | cons op t ih =>
    have hop := hops op (by simp)
    have hstep : (applyROp resp op)._deferred = some r := by
      cases op with
      | json b => exact json_deferred_resolved resp b r h
      | send b => exact send_deferred_resolved resp b r h
      | endCall => exact end'_deferred_resolved resp r h
      | status c => exact absurd hop (by simp [isFinalizer])
      | rtype tt => exact absurd hop (by simp [isFinalizer])
      | setHeader k v => exact absurd hop (by simp [isFinalizer])
      | deleteHeader k => exact absurd hop (by simp [isFinalizer])
      | sendStatus c => exact absurd hop (by simp [isFinalizer])
    exact ih (applyROp resp op) hstep (fun o ho => hops o (by simp [ho]))

/-- C3 witness: a resolved builder keeps its resolution through a
`json`/`send`/`end` call sequence. -/
theorem C3_resolution_idempotent_witness :
    (applyROps resolvedResp0
        [ROp.json (.vnum 7), ROp.send (.vstr "late"), ROp.endCall])._deferred
      = some (.response res0) :=
  C3_resolution_idempotent resolvedResp0 (.response res0)
    [ROp.json (.vnum 7), ROp.send (.vstr "late"), ROp.endCall] rfl (by decide)

/-- C4: the dispatcher arms a 2000 ms global fallback timer whose callback,
when the response is still unresolved at fire time, resolves the deferred
signal with a real network fetch of the original request — performed through
the worker-global `fetch`, which does not re-enter the interception layer
(the listener runs in the service-worker context, where the global fetch is
unpatched) — and, when the response is already resolved, changes nothing. -/
theorem C4_global_fallback (resp : MockerResponse) (routers : List RouterM)
    (event : FetchEvent) (ctx : GlobalCtx) :
    (fetchListener routers event).fallbackDelayMs = 2000 ∧
    (resp._deferred = none →
      resolvedNetworkCall (listenerFallbackCallback resp)
        = some { prim := .globalFetch, input := .request resp._event.request, init := {} } ∧
      (ctx.fetchPatched = false →
        FetchCall.reenters
          { prim := .globalFetch, input := .request resp._event.request, init := {} } ctx
          = false)) ∧
    (resp._deferred.isSome = true → listenerFallbackCallback resp = resp) := by
  refine ⟨rfl, ?_, ?_⟩
  · intro h
    constructor
    · rw [listenerFallbackCallback]
      simp [h, resolvedNetworkCall]
    · intro hctx
      simp [FetchCall.reenters, hctx]
  · intro h
    rw [listenerFallbackCallback, if_pos h]

/-- C4 witness: a pending builder is resolved by the fallback with the real
fetch of the original request; an already-resolved builder is untouched. -/
theorem C4_global_fallback_witness :
    resolvedNetworkCall (listenerFallbackCallback (MockerResponse.create evGet).resp)
      = some { prim := .globalFetch, input := .request reqGet, init := {} } ∧
    listenerFallbackCallback resolvedResp0 = resolvedResp0 :=
  ⟨((C4_global_fallback (MockerResponse.create evGet).resp [] evGet swCtx).2.1 rfl).1,
   (C4_global_fallback resolvedResp0 [] evGet swCtx).2.2 rfl⟩

/-- C5 (amended): the constructor arms a 10 * 1000 ms safety timer; when the
deferred signal is still unresolved at fire time the callback logs one
message — at error level, not as a warning — and calls `forward()` on the
original request (resolving the signal); when the signal has settled the
callback does nothing; and both settle continuations
(`promise.then(clear, clear)`) clear the timer. -/
theorem C5_safety_timer (event : FetchEvent) (ctx : GlobalCtx)
    (resp : MockerResponse) (k : SettleKind) :
    (MockerResponse.create event).timerDelayMs = 10 * 1000 ∧
    (resp._deferred = none →
      (ctorTimeoutCallback ctx resp).1
          = resp.forward ctx (.request resp._event.request) {} ∧
      ((ctorTimeoutCallback ctx resp).1._deferred).isSome = true ∧
      (ctorTimeoutCallback ctx resp).2.map LogEntry.level = [LogLevel.error]) ∧
    (resp._deferred.isSome = true → ctorTimeoutCallback ctx resp = (resp, [])) ∧
    ctorOnSettle k = .clearTimer := by
  refine ⟨rfl, ?_, ?_, ?_⟩
  · intro h
    have hnone : resp._deferred.isSome = false := by rw [h]; rfl
    refine ⟨?_, ?_, ?_⟩
    · rw [ctorTimeoutCallback, if_neg (by rw [hnone]; exact Bool.false_ne_true)]
    · rw [ctorTimeoutCallback, if_neg (by rw [hnone]; exact Bool.false_ne_true)]
      rw [MockerResponse.forward]
      simp [h, resolveDefer]
    · rw [ctorTimeoutCallback, if_neg (by rw [hnone]; exact Bool.false_ne_true)]
      rfl
  · intro h
    rw [ctorTimeoutCallback, if_pos h]
  · cases k <;> rfl

/-- C5 witness: the armed delay, the error-level log on a pending builder,
the no-op on a resolved one, and the clear on both settle kinds. -/
theorem C5_safety_timer_witness :
    (MockerResponse.create evGet).timerDelayMs = 10 * 1000 ∧
    (ctorTimeoutCallback swCtx (MockerResponse.create evGet).resp).2.map LogEntry.level
      = [LogLevel.error] ∧
    ctorTimeoutCallback swCtx resolvedResp0 = (resolvedResp0, []) ∧
    ctorOnSettle .rejected = .clearTimer :=
  ⟨(C5_safety_timer evGet swCtx (MockerResponse.create evGet).resp .rejected).1,
   ((C5_safety_timer evGet swCtx (MockerResponse.create evGet).resp .rejected).2.1 rfl).2.2,
   (C5_safety_timer evGet swCtx resolvedResp0 .rejected).2.2.1 rfl,
   (C5_safety_timer evGet swCtx resolvedResp0 .rejected).2.2.2⟩

/-- C5 counterexample: at a concrete pending builder the timeout callback's
only log entry is at error level (the code calls `responseLog.error`), and
error is not the warning level — so "a warning is logged", as the claim
states it, is false. -/
theorem C5_no_warning_logged :
    (ctorTimeoutCallback swCtx (MockerResponse.create evGet).resp).2.map LogEntry.level
      = [LogLevel.error] ∧
    LogLevel.error ≠ LogLevel.warn :=
  ⟨rfl, by decide⟩

theorem type_event (resp : MockerResponse) (t : String) :
    (resp.type t)._event = resp._event := rfl

theorem end'_body (resp : MockerResponse) : (resp.end')._body = resp._body := by
  rw [MockerResponse.end']
  simp only [apply_ite MockerResponse._body, type_body, ite_self]

theorem hHas_type (resp : MockerResponse) (t : String) :
    hHas (resp.type t).headers "content-type" = true := by
  rw [type_headers, hHas, hGet_hSet_self _ _ _ _ rfl]
  rfl

theorem sendWith_spec (resp : MockerResponse) (ct : String)
    (h : hHas resp.headers "content-type" = false) :
    sendWith resp ct = (resp.type ct).end' := by
  rw [sendWith, if_neg (by rw [h]; exact Bool.false_ne_true)]

theorem json_unfold (resp : MockerResponse) (b : JsVal) :
    resp.json b
      = (if hHas resp.headers "content-type"
         then { resp with _body := (jsStringify b).map JsVal.vstr }
         else ({ resp with _body := (jsStringify b).map JsVal.vstr }).type "json").end' := rfl

theorem sendWith_unfold (resp : MockerResponse) (ct : String) :
    sendWith resp ct
      = (if hHas resp.headers "content-type" then resp else resp.type ct).end' := rfl

/-- C6 (amended): `send` dispatches on the body's runtime shape as the claim
says for strings (HTML text), binary payloads (own type or the generic
binary default) and plain objects/arrays/numbers/booleans (delegated to
`json`); but a body of any other shape (`undefined`, a function, a symbol)
is NOT rejected — the call falls through the `switch`, leaves the stored
body unchanged, and still finalizes the response. -/
theorem C6_send_dispatch (resp : MockerResponse) (s bt : String) (d : List Nat)
    (n : Int) (b : Bool) (j : JVal)
    (hct : hHas resp.headers "content-type" = false) :
    ((resp.send (.vstr s))._body = some (.vstr s) ∧
      hGet (resp.send (.vstr s)).headers "content-type" = some "text/html") ∧
    (bt.data.contains '/' = true →
      hGet (resp.send (.vblob bt d)).headers "content-type" = some bt) ∧
    hGet (resp.send (.vblob "" d)).headers "content-type"
      = some "application/octet-stream" ∧
    hGet (resp.send (.vbuf d)).headers "content-type"
      = some "application/octet-stream" ∧
    (resp.send (.vnum n) = resp.json (.vnum n)) ∧
    (resp.send (.vbool b) = resp.json (.vbool b)) ∧
    (resp.send (.vobj j) = resp.json (.vobj j)) ∧
    (resp.send .vnull = resp.json .vnull) ∧
    ((resp.send .vundef)._deferred.isSome = true ∧ (resp.send .vundef)._body = resp._body) ∧
    ((resp.send .vfunc)._deferred.isSome = true ∧ (resp.send .vfunc)._body = resp._body) ∧
    ((resp.send .vsym)._deferred.isSome = true ∧ (resp.send .vsym)._body = resp._body) := by
  have hfall : ∀ ct : String, ((sendWith resp ct)._deferred.isSome = true) ∧
      (sendWith resp ct)._body = resp._body := by
    intro ct
    constructor
    · exact end'_deferred_isSome _
    · rw [sendWith_unfold, end'_body]
      simp only [apply_ite MockerResponse._body, type_body, ite_self]
  refine ⟨⟨?_, ?_⟩, ?_, ?_, ?_, rfl, rfl, rfl, rfl, hfall "text", hfall "text", hfall "text"⟩
  · show (sendWith { resp with _body := some (.vstr s) } "html")._body = some (.vstr s)
    rw [sendWith_spec { resp with _body := some (.vstr s) } "html" hct,
      end'_body, type_body]
  · show hGet (sendWith { resp with _body := some (.vstr s) } "html").headers
        "content-type" = some "text/html"
    rw [sendWith_spec { resp with _body := some (.vstr s) } "html" hct,
      end'_headers, if_pos (hHas_type _ _), type_headers,
      hGet_hSet_self _ _ _ _ rfl]
    rfl
  · intro hbt
    have hne : bt ≠ "" := by
      intro he
      rw [he] at hbt
      exact absurd hbt (by decide)
    show hGet (sendWith { resp with _body := some (.vblob bt d) }
        (if bt = "" then "bin" else bt)).headers "content-type" = some bt
    rw [if_neg hne, sendWith_spec { resp with _body := some (.vblob bt d) } bt hct,
      end'_headers, if_pos (hHas_type _ _),
      type_headers, hGet_hSet_self _ _ _ _ rfl,
      if_neg (by rw [hbt]; simp)]
  · show hGet (sendWith { resp with _body := some (.vblob "" d) }
        (if ("" : String) = "" then "bin" else "")).headers "content-type"
        = some "application/octet-stream"
    rw [if_pos rfl, sendWith_spec { resp with _body := some (.vblob "" d) } "bin" hct,
      end'_headers, if_pos (hHas_type _ _),
      type_headers, hGet_hSet_self _ _ _ _ rfl]
    rfl
  · show hGet (sendWith { resp with _body := some (.vbuf d) } "bin").headers
        "content-type" = some "application/octet-stream"
    rw [sendWith_spec { resp with _body := some (.vbuf d) } "bin" hct,
      end'_headers, if_pos (hHas_type _ _),
      type_headers, hGet_hSet_self _ _ _ _ rfl]
    rfl

/-- C6 witness: the dispatch outcomes at a fresh builder. -/
theorem C6_send_dispatch_witness :
    ((MockerResponse.create evGet).resp.send (.vstr "hi"))._body = some (.vstr "hi") ∧
    hGet ((MockerResponse.create evGet).resp.send (.vblob "image/png" [1])).headers
      "content-type" = some "image/png" ∧
    ((MockerResponse.create evGet).resp.send (.vnum 5)
      = (MockerResponse.create evGet).resp.json (.vnum 5)) ∧
    ((MockerResponse.create evGet).resp.send .vundef)._deferred.isSome = true :=
  ⟨(C6_send_dispatch (MockerResponse.create evGet).resp "hi" "image/png" [1] 5 true
      .jnull rfl).1.1,
   (C6_send_dispatch (MockerResponse.create evGet).resp "hi" "image/png" [1] 5 true
      .jnull rfl).2.1 rfl,
   (C6_send_dispatch (MockerResponse.create evGet).resp "hi" "image/png" [1] 5 true
      .jnull rfl).2.2.2.2.1,
   (C6_send_dispatch (MockerResponse.create evGet).resp "hi" "image/png" [1] 5 true
      .jnull rfl).2.2.2.2.2.2.2.2.1.1⟩

/-- C6 counterexample: at a fresh pending builder, `send` applied to a
function-shaped body (a shape outside the documented dispatch table) is not
rejected: it finalizes the response — the deferred signal is resolved — with
the stored body unchanged and the content-type defaulted.  This falsifies
"for every body of any other shape, the call is rejected rather than
silently coerced or finalized". -/
theorem C6_unsupported_not_rejected :
    ((MockerResponse.create evGet).resp.send JsVal.vfunc)._deferred.isSome = true ∧
    ((MockerResponse.create evGet).resp.send JsVal.vfunc)._body = none ∧
    finalizedHeader ((MockerResponse.create evGet).resp.send JsVal.vfunc) "content-type"
      = some (some "text/plain") :=
  ⟨rfl, rfl, rfl⟩

/-- C7: when `end()` finalizes a pending builder, the finalized body is
empty whenever the status code is a null-body status (101/204/205/304) or
the request method is HEAD — whatever body was previously stored — and when
no content-type header was set, the finalized content-type is text/plain. -/
theorem C7_end_discards_body (resp : MockerResponse) (hp : resp._deferred = none) :
    (NULL_BODY_STATUS.contains resp._statusCode = true ∨
        resp._event.request.method = "HEAD" →
      finalizedBody (resp.end') = some none) ∧
    (hHas resp.headers "content-type" = false →
      finalizedHeader (resp.end') "content-type" = some (some "text/plain")) ∧
    (resolvedResponse (resp.end')).isSome = true := by
  refine ⟨?_, ?_, ?_⟩
  · intro hcond
    rw [finalizedBody, end'_finalized resp hp, Option.map_some']
    rcases hcond with hc | hc
    · rw [if_pos hc, ite_self]
    · rw [if_pos hc]
  · intro hctf
    have hctf' : ¬(hHas resp.headers "content-type" = true) := by
      rw [hctf]; exact Bool.false_ne_true
    rw [finalizedHeader, end'_finalized resp hp, Option.map_some', if_neg hctf',
      hGet_hSet_self _ _ _ _ rfl]
  · rw [end'_finalized resp hp]
    rfl

/-- C7 witness: `status(204).send(body)` on a GET builder and a plain `end()`
on a HEAD builder both produce an empty body; a fresh builder's `end()`
defaults the content-type to text/plain. -/
theorem C7_end_discards_body_witness :
    finalizedBody ((MockerResponse.create evHead).resp.end') = some none ∧
    finalizedBody (((MockerResponse.create evGet).resp.status 204).end') = some none ∧
    finalizedHeader ((MockerResponse.create evGet).resp.end') "content-type"
      = some (some "text/plain") :=
  ⟨(C7_end_discards_body (MockerResponse.create evHead).resp rfl).1 (Or.inr rfl),
   (C7_end_discards_body ((MockerResponse.create evGet).resp.status 204) rfl).1
     (Or.inl (by decide)),
   (C7_end_discards_body (MockerResponse.create evGet).resp rfl).2.1 rfl⟩

theorem jsToJson_jsonOfJVal (j : JVal) : jsToJson (jsonOfJVal j) = some j := by
  cases j <;> rfl

/-- C8 (amended): for every JSON value `j`, `json(j)` on a pending builder
whose status is not a null-body status and whose request is not HEAD
finalizes a response whose body is the serialized text of `j`, that text
parses back to a value deep-equal to `j`, and — when no content-type header
was previously set — the finalized content-type is the JSON MIME type.
(The null-body-status/HEAD exception is forced by `end()`'s body-discarding
rules, which the original claim overlooks.) -/
theorem C8_json_roundtrip (resp : MockerResponse) (j : JVal)
    (hp : resp._deferred = none)
    (hstatus : NULL_BODY_STATUS.contains resp._statusCode = false)
    (hmethod : resp._event.request.method ≠ "HEAD") :
    finalizedBody (resp.json (jsonOfJVal j))
      = some (some (.vstr (String.mk (jsonStr j)))) ∧
    jsonParse (jsonStr j) = some j ∧
    (hHas resp.headers "content-type" = false →
      finalizedHeader (resp.json (jsonOfJVal j)) "content-type"
        = some (some "application/json")) := by
  have hjs : (jsStringify (jsonOfJVal j)).map JsVal.vstr
      = some (.vstr (String.mk (jsonStr j))) := by
    rw [jsStringify, jsToJson_jsonOfJVal, Option.map_some', Option.map_some']
  have hst' : ¬(NULL_BODY_STATUS.contains resp._statusCode = true) := by
    rw [hstatus]; exact Bool.false_ne_true
  refine ⟨?_, jsonParse_jsonStr j, ?_⟩
  · rw [json_unfold]
    by_cases hct : hHas resp.headers "content-type" = true
    · rw [if_pos hct, finalizedBody,
        end'_finalized { resp with _body := (jsStringify (jsonOfJVal j)).map JsVal.vstr } hp,
        Option.map_some']
      simp only [if_neg hmethod, if_neg hst', hjs]
    · have hpX : ({ resp with
          _body := (jsStringify (jsonOfJVal j)).map JsVal.vstr }.type "json")._deferred
          = none := hp
      rw [if_neg hct, finalizedBody, end'_finalized _ hpX, Option.map_some']
      simp only [type_event, type_statusCode, type_body]
      simp only [if_neg hmethod, if_neg hst', hjs]
  · intro hctf
    have hctf' : ¬(hHas resp.headers "content-type" = true) := by
      rw [hctf]; exact Bool.false_ne_true
    have hpX : ({ resp with
        _body := (jsStringify (jsonOfJVal j)).map JsVal.vstr }.type "json")._deferred
        = none := hp
    rw [json_unfold, if_neg hctf', finalizedHeader, end'_finalized _ hpX,
      Option.map_some', if_pos (hHas_type _ _), type_json_headers,
      hGet_hSet_self _ _ _ _ rfl]

/-- C8 witness: a nested object with an escape-needing string and a negative
number round-trips through `json()` on a fresh GET builder. -/
theorem C8_json_roundtrip_witness :
    finalizedBody ((MockerResponse.create evGet).resp.json (jsonOfJVal jW))
      = some (some (.vstr (String.mk (jsonStr jW)))) ∧
    jsonParse (jsonStr jW) = some jW ∧
    finalizedHeader ((MockerResponse.create evGet).resp.json (jsonOfJVal jW)) "content-type"
      = some (some "application/json") :=
  ⟨(C8_json_roundtrip (MockerResponse.create evGet).resp jW rfl (by decide) (by decide)).1,
   (C8_json_roundtrip (MockerResponse.create evGet).resp jW rfl (by decide) (by decide)).2.1,
   (C8_json_roundtrip (MockerResponse.create evGet).resp jW rfl (by decide) (by decide)).2.2
     rfl⟩

/-- C8 counterexample: on a pending builder whose status was set to 204 (a
null-body status), `json(1)` finalizes a response with an empty body — there
is no body text that parses back to `1` — falsifying the unconditional
round-trip claim. -/
theorem C8_roundtrip_fails_on_null_body_status :
    finalizedBody (((MockerResponse.create evGet).resp.status 204).json (.vnum 1))
      = some none ∧
    NULL_BODY_STATUS.contains 204 = true :=
  ⟨rfl, by decide⟩

/-- C9 (amended): `forward` resolves the pending deferred signal with a
network call issued through the unpatched native fetch primitive, which
never re-enters interception; when the input is a URL, the call's options
clone the original request's method, headers and body unless overridden by
`init` and always force mode 'cors' with credentials included — but when
the input is a `Request` object, the code takes the early branch and passes
`init` through unchanged, forcing neither mode nor credentials and cloning
nothing. -/
theorem C9_forward_native (resp : MockerResponse) (ctx : GlobalCtx) (u : String)
    (r : MRequest) (init : MRequestInit) (input : RequestInfo) (i2 : MRequestInit)
    (hp : resp._deferred = none) :
    resolvedNetworkCall (resp.forward ctx (.url u) init)
      = some (nativeFetch ctx (.url u)
          { body :=
              match init.body with
              | some b => some b
              | none => forwardDefaultBody resp._event.request,
            method := some (init.method.getD resp._event.request.method),
            headers := some (init.headers.getD resp._event.request.headers),
            mode := some "cors",
            credentials := some "include" }) ∧
    resolvedNetworkCall (resp.forward ctx (.request r) init)
      = some (nativeFetch ctx (.request r) init) ∧
    FetchCall.reenters (nativeFetch ctx input i2) ctx = false := by
  refine ⟨?_, ?_, ?_⟩
  · rw [MockerResponse.forward]
    simp only [hp, resolveDefer]
    rfl
  · rw [MockerResponse.forward]
    simp only [hp, resolveDefer]
    rfl
  · rw [nativeFetch]
    split
    · rfl
    · split
      · rfl
      · rename_i h1 _
        rw [FetchCall.reenters]
        simp only [Bool.not_eq_true] at h1
        exact h1

/-- C9 witness: forwarding a fresh GET builder to a URL forces cors-mode
credentialed options; the unpatched primitive never re-enters
interception. -/
theorem C9_forward_native_witness :
    resolvedNetworkCall ((MockerResponse.create evGet).resp.forward swCtx (.url "/dest") {})
      = some (nativeFetch swCtx (.url "/dest")
          { body := none, method := some "GET", headers := some [],
            mode := some "cors", credentials := some "include" }) ∧
    FetchCall.reenters (nativeFetch swCtx (.url "/dest") {}) swCtx = false :=
  ⟨(C9_forward_native (MockerResponse.create evGet).resp swCtx "/dest" reqGet {}
      (.url "/dest") {} rfl).1,
   (C9_forward_native (MockerResponse.create evGet).resp swCtx "/dest" reqGet {}
      (.url "/dest") {} rfl).2.2⟩

/-- C9 counterexample: forwarding a `Request` object with an empty `init`
resolves the deferred with a network call whose options have no mode and no
credentials at all — the `input instanceof Request` branch skips the
cors/credentials/cloning logic, falsifying "that request always uses
cross-origin-capable mode ('cors') with credentials included". -/
theorem C9_request_branch_skips_cors :
    resolvedNetworkCall ((MockerResponse.create evGet).resp.forward swCtx
        (.request reqGet) {})
      = some { prim := .globalFetch, input := .request reqGet, init := {} } ∧
    ({} : MRequestInit).mode = none ∧
    ({} : MRequestInit).credentials = none :=
  ⟨rfl, rfl, rfl⟩

/-- C10: every builder's header map is pre-seeded at construction with
`X-Powered-By: ServiceMocker`, and after any sequence of handler calls that
never writes or deletes that key, both the builder's header map and any
response it has finalized still carry it. -/
theorem C10_powered_by_header (event : FetchEvent) (ops : List ROp)
    (hops : ∀ op ∈ ops, touchesPoweredBy op = false) :
    hGet (MockerResponse.create event).resp.headers "X-Powered-By"
      = some "ServiceMocker" ∧
    hGet (applyROps (MockerResponse.create event).resp ops).headers "X-Powered-By"
      = some "ServiceMocker" ∧
    ∀ r, resolvedResponse (applyROps (MockerResponse.create event).resp ops) = some r →
      hGet r.headers "X-Powered-By" = some "ServiceMocker" := by
  have h := keeps_applyROps (MockerResponse.create event).resp ops (keeps_create event) hops
  exact ⟨(keeps_create event).1, h.1, h.2⟩

/-- C10 witness: a handler that sets a status, sets an unrelated header and
sends a JSON body leaves the identifying header on the finalized response. -/
theorem C10_powered_by_header_witness :
    hGet (applyROps (MockerResponse.create evGet).resp
        [ROp.status 201, ROp.setHeader "X-Request-Id" "1", ROp.json (.vnum 1)]).headers
      "X-Powered-By" = some "ServiceMocker" ∧
    hGet res0.headers "X-Powered-By" = some "ServiceMocker" :=
  ⟨(C10_powered_by_header evGet
      [ROp.status 201, ROp.setHeader "X-Request-Id" "1", ROp.json (.vnum 1)]
      (by decide)).2.1,
   (C10_powered_by_header evGet [ROp.endCall] (by decide)).2.2 res0 rfl⟩
